import Mathlib

/-!
Shallow embedding of `specutils/manipulation/utils.py`: the functions
`linear_exciser`, `excise_region`, `excise_regions` and `spectrum_from_model`,
together with the spectrum data model they operate on.  Numeric values are
modelled with `ℚ` and numpy arrays with `List ℚ`.  Raised Python exceptions are
modelled with `Except PyErr`.
-/

namespace SpecUtils

/-- Physical unit tag, kept opaque: astropy units are external to the module. -/
abbrev UnitTag := String

/-- Modelled from the spec: an astropy quantity array (external to `src/`),
numeric values paired with a unit.  `values` plays the role of the `.value`
attribute and `unit` of the `.unit` attribute. -/
structure QuantityList where
  values : List ℚ
  unit : UnitTag
  deriving DecidableEq, Repr

/-- Modelled from the spec: the spectrum data object (the `Spectrum1D` class
lives outside `src/`): an ordered wavelength axis with a parallel flux
sequence, optional uncertainty, and optional coordinate / velocity metadata.
The fields mirror the keyword arguments that `utils.py` passes to the
`Spectrum1D` constructor; a keyword argument the constructor is called without
defaults to `none`. -/
structure Spectrum1D where
  spectral_axis : QuantityList
  flux : QuantityList
  uncertainty : Option (List ℚ)
  wcs : Option ℕ
  unit : Option UnitTag
  velocity_convention : Option UnitTag
  rest_value : Option ℚ
  deriving DecidableEq, Repr

/-- Modelled from the spec: a region is a half-open wavelength interval
`[lower, upper)` in the units of the spectral axis. -/
structure SpectralRegion where
  lower : ℚ
  upper : ℚ
  deriving DecidableEq, Repr

/-- Python exceptions that the functions of `utils.py` can raise. -/
inductive PyErr where
  | valueError (msg : String)
  | indexError
  deriving DecidableEq, Repr

/-- Array read `xs[i]` with default `0`; every use in the embedding is guarded
so that `i` is in bounds and the default is never reached there. -/
def arrGet (xs : List ℚ) (i : ℕ) : ℚ := xs.getD i 0

/-- Lines 41-43 of `utils.py`:
`wavelengths_in = (wavelengths >= region.lower) & (wavelengths < region.upper)`
and `inclusive_indices = np.nonzero(wavelengths_in)[0]`, i.e. the ascending
list of indices whose wavelength lies in `[lower, upper)`. -/
def matchIndices (w : List ℚ) (region : SpectralRegion) : List ℕ :=
  (List.range w.length).filter
    (fun i => decide (region.lower ≤ arrGet w i ∧ arrGet w i < region.upper))

/-- Python builtin `min` on two naturals, written so that it reduces by
computation. -/
def natMin (a b : ℕ) : ℕ :=
  if a ≤ b then a else b

/-- Lines 50-51 of `utils.py`:
`s, e = max(inclusive_indices[0]-1, 0), min(inclusive_indices[-1]+1, wavelengths.size-1)`.
Returns `none` when no index matched, in which case the source raises an
`IndexError` at `inclusive_indices[0]`.  Natural truncated subtraction makes
`i0 - 1` equal to `max(inclusive_indices[0]-1, 0)`. -/
def exciseBounds (w : List ℚ) (region : SpectralRegion) : Option (ℕ × ℕ) :=
  match matchIndices w region with
  | [] => none
  | i0 :: rest => some (i0 - 1, natMin ((i0 :: rest).getLastD 0 + 1) (w.length - 1))

/-- Model of `np.linspace(a, b, n)`: `n` evenly spaced points running from `a`
to `b` inclusive.  For `n = 1` numpy returns the single point `a`, which the
convention `x / 0 = 0` of `ℚ` reproduces; for `n = 0` the list is empty. -/
def linspace (a b : ℚ) (n : ℕ) : List ℚ :=
  (List.range n).map (fun k : ℕ => a + (k : ℚ) * (b - a) / ((n : ℚ) - 1))

/-- Size of the numpy slice `xs[s:e]`. -/
def sliceSize (xs : List ℚ) (s e : ℕ) : ℕ :=
  natMin e xs.length - natMin s xs.length

/-- Numpy slice assignment `xs[s:e] = vals`.  Its uses below satisfy
`s ≤ e ≤ xs.length` and `vals.length = e - s`, where it replaces exactly the
positions `s ≤ i < e` and keeps every other entry. -/
def setSlice (xs : List ℚ) (s e : ℕ) (vals : List ℚ) : List ℚ :=
  xs.take s ++ vals ++ xs.drop e

/-- Lines 41-55 of `linear_exciser`: the contents of the flux array after the
slice assignment
`modified_flux[s:e] = np.linspace(flux[s], flux[e], modified_flux[s:e].size)`.
`Except.error .indexError` models the two places an `IndexError` escapes: the
read `inclusive_indices[0]` on an empty match, and the read `flux[e]` when the
flux array has fewer than `e + 1` entries (both reads of `flux[s]` and
`flux[e]` happen before the assignment, and `s ≤ e` always holds). -/
def excisedFlux (spectrum : Spectrum1D) (region : SpectralRegion) : Except PyErr (List ℚ) :=
  match exciseBounds spectrum.spectral_axis.values region with
  | none => .error .indexError
  | some (s, e) =>
    let flux := spectrum.flux.values
    if e < flux.length then
      .ok (setSlice flux s e (linspace (arrGet flux s) (arrGet flux e) (sliceSize flux s e)))
    else
      .error .indexError

/-- Function `linear_exciser(spectrum, region)` of `utils.py` (lines 8-63):
computes the modified flux and returns a new `Spectrum1D` built from it with
the unit of the input flux, the same spectral axis object, and the remaining
metadata of the input spectrum. -/
def linear_exciser (spectrum : Spectrum1D) (region : SpectralRegion) : Except PyErr Spectrum1D :=
  (excisedFlux spectrum region).map (fun modified_flux =>
    { flux := { values := modified_flux, unit := spectrum.flux.unit },
      spectral_axis := spectrum.spectral_axis,
      uncertainty := spectrum.uncertainty,
      wcs := spectrum.wcs,
      unit := spectrum.unit,
      velocity_convention := spectrum.velocity_convention,
      rest_value := spectrum.rest_value })

/-- Models the in-place effect of `linear_exciser` on the caller array.  In the
source, `flux = spectrum.flux.value` exposes the storage of the input flux
array and `modified_flux = flux` binds the same array object (no copy is
taken), so the slice assignment on line 55 also mutates the flux storage of the
input spectrum.  This definition gives the contents of the input flux array
after a call of `linear_exciser`, when that call returns normally. -/
def linear_exciser_inputFluxAfter (spectrum : Spectrum1D) (region : SpectralRegion) :
    Except PyErr (List ℚ) :=
  excisedFlux spectrum region

/-- Argument that may or may not be an actual `Spectrum1D` instance, so that
the `isinstance(spectrum, Spectrum1D)` checks of `excise_region` and
`excise_regions` can be stated. -/
inductive SpectrumArg where
  | spec1d (s : Spectrum1D)
  | notSpectrum (tag : ℕ)
  deriving DecidableEq, Repr

/-- Argument that may or may not be an actual `SpectralRegion` instance, so
that the `isinstance(region, SpectralRegion)` check of `excise_region` can be
stated. -/
inductive RegionArg where
  | region (r : SpectralRegion)
  | notRegion (tag : ℕ)
  deriving DecidableEq, Repr

/-- Type of an exciser strategy as `excise_region` uses it: from a genuine
spectrum and region to a spectrum, or a raised exception. -/
abbrev Exciser := Spectrum1D → SpectralRegion → Except PyErr Spectrum1D

/-- Function `excise_region(spectrum, region, exciser)` of `utils.py`
(lines 110-153): the two `isinstance` checks in order, then
`return exciser(spectrum, region)`. -/
def excise_region (spectrum : SpectrumArg) (region : RegionArg) (exciser : Exciser) :
    Except PyErr Spectrum1D :=
  match spectrum with
  | .notSpectrum _ =>
    .error (.valueError ("The spectrum parameter must be Spectrum1D object."))
  | .spec1d s =>
    match region with
    | .notRegion _ =>
      .error (.valueError ("The region parameter must be a 2-tuples of start and end wavelengths."))
    | .region r => exciser s r

/-- Loop body of `excise_regions` (lines 105-106 of `utils.py`):
`for region in regions: spectrum = excise_region(spectrum, region, exciser)`,
then `return spectrum`. -/
def exciseLoop (s : Spectrum1D) (regions : List RegionArg) (exciser : Exciser) :
    Except PyErr Spectrum1D :=
  match regions with
  | [] => .ok s
  | r :: rs =>
    match excise_region (.spec1d s) r exciser with
    | .error err => .error err
    | .ok s2 => exciseLoop s2 rs exciser

/-- Function `excise_regions(spectrum, regions, exciser)` of `utils.py`
(lines 66-107): the spectrum `isinstance` check, then the loop threading the
spectrum through `excise_region` for each region in order. -/
def excise_regions (spectrum : SpectrumArg) (regions : List RegionArg) (exciser : Exciser) :
    Except PyErr Spectrum1D :=
  match spectrum with
  | .notSpectrum _ =>
    .error (.valueError ("The spectrum parameter must be Spectrum1D object."))
  | .spec1d s => exciseLoop s regions exciser

/-- Statement of the spec sentence for the refinement claim about
`excise_regions`: a left fold of `excise_region` over the region list,
threading the intermediate spectrum through each call. -/
def excise_regions_spec (s : Spectrum1D) (regions : List RegionArg) (exciser : Exciser) :
    Except PyErr Spectrum1D :=
  regions.foldlM (fun sp r => excise_region (.spec1d sp) r exciser) s

/-- Abstraction of the external astropy model callable: `uses_quantity` says
whether the model understands unit-carrying input; `onQuantity` is its response
to a quantity argument and `onValues` its response to a plain value array (the
Python object is one callable answering both kinds of argument). -/
structure Model where
  uses_quantity : Bool
  onQuantity : QuantityList → QuantityList
  onValues : List ℚ → List ℚ

/-- Function `spectrum_from_model(model_input, spectrum)` of `utils.py`
(lines 156-192): evaluate the model on the spectral axis (directly when
`uses_quantity`, otherwise on the raw values with the flux unit of the input
spectrum attached) and build a new `Spectrum1D` from the result; the
constructor is called without `uncertainty` and without `unit`, so those
default to absent. -/
def spectrum_from_model (model_input : Model) (spectrum : Spectrum1D) : Spectrum1D :=
  let flux :=
    if model_input.uses_quantity then
      model_input.onQuantity spectrum.spectral_axis
    else
      { values := model_input.onValues spectrum.spectral_axis.values,
        unit := spectrum.flux.unit }
  { flux := flux,
    spectral_axis := spectrum.spectral_axis,
    uncertainty := none,
    wcs := spectrum.wcs,
    unit := none,
    velocity_convention := spectrum.velocity_convention,
    rest_value := spectrum.rest_value }

/-- Statement of the spec words for the claim about the excised flux: overwrite
the flux at every index of the extended inclusive range `[s, e]` with a
linearly spaced sequence whose endpoints are the flux values at the two
boundary indices `s` and `e`. -/
def inclusiveExcisedFlux (flux : List ℚ) (s e : ℕ) : List ℚ :=
  setSlice flux s (e + 1) (linspace (arrGet flux s) (arrGet flux e) (e + 1 - s))

/-- Concrete wavelength axis used for witnesses and counterexamples. -/
def sampleAxis : QuantityList := { values := [1, 2, 3, 4, 5], unit := "AA" }

/-- Concrete flux array used for witnesses and counterexamples. -/
def sampleFlux : QuantityList := { values := [10, 20, 30, 40, 50], unit := "Jy" }

/-- Concrete spectrum used for witnesses and counterexamples. -/
def sampleSpectrum : Spectrum1D :=
  { spectral_axis := sampleAxis, flux := sampleFlux, uncertainty := none,
    wcs := none, unit := none, velocity_convention := none, rest_value := none }

/-- Concrete region `[3, 4)`: it matches exactly the wavelength sample at
index 2 of `sampleSpectrum`. -/
def sampleRegion : SpectralRegion := { lower := 3, upper := 4 }

/-- Concrete region `[10, 20)`: it matches no wavelength sample of
`sampleSpectrum`. -/
def sampleRegionOutside : SpectralRegion := { lower := 10, upper := 20 }

/-- Result of excising `sampleRegion` from `sampleSpectrum`: the extended index
range is `s = 1`, `e = 3` and the slice `[1, 3)` of the flux becomes
`linspace 20 40 2 = [20, 40]`. -/
def sampleExcisedSpectrum : Spectrum1D :=
  { spectral_axis := sampleAxis,
    flux := { values := [10, 20, 40, 40, 50], unit := "Jy" },
    uncertainty := none, wcs := none, unit := none,
    velocity_convention := none, rest_value := none }

/-- Concrete unit-aware model: doubles each value, keeping the unit. -/
def sampleModelQ : Model :=
  { uses_quantity := true,
    onQuantity := fun q => { values := q.values.map (fun x => 2 * x), unit := q.unit },
    onValues := fun v => v }

/-- Concrete unit-unaware model: adds one to each raw value. -/
def sampleModelV : Model :=
  { uses_quantity := false,
    onQuantity := fun q => q,
    onValues := fun v => v.map (fun x => x + 1) }

/-- Decidable equality on `Except`, so that concrete calls of the embedded
functions can be evaluated by `decide`. -/
instance {ε α : Type} [DecidableEq ε] [DecidableEq α] : DecidableEq (Except ε α) := fun x y =>
  match x, y with
  | .ok a, .ok b =>
    if h : a = b then .isTrue (congrArg Except.ok h)
    else .isFalse (fun hh => h (Except.ok.inj hh))
  | .error a, .error b =>
    if h : a = b then .isTrue (congrArg Except.error h)
    else .isFalse (fun hh => h (Except.error.inj hh))
  | .ok _, .error _ => .isFalse (fun hh => Except.noConfusion hh)
  | .error _, .ok _ => .isFalse (fun hh => Except.noConfusion hh)

/-! Helper lemmas about `arrGet`, `setSlice`, `linspace`, `matchIndices` and
`exciseBounds`. -/

theorem natMin_le_right (a b : ℕ) : natMin a b ≤ b := by
  unfold natMin
  split <;> omega

theorem le_natMin (a b c : ℕ) (h1 : c ≤ a) (h2 : c ≤ b) : c ≤ natMin a b := by
  unfold natMin
  split <;> omega

theorem arrGet_append_left (l1 l2 : List ℚ) (i : ℕ) (h : i < l1.length) :
    arrGet (l1 ++ l2) i = arrGet l1 i := by
  simp [arrGet, List.getElem?_append_left h]

theorem arrGet_append_right (l1 l2 : List ℚ) (i : ℕ) (h : l1.length ≤ i) :
    arrGet (l1 ++ l2) i = arrGet l2 (i - l1.length) := by
  simp [arrGet, List.getElem?_append_right h]

theorem setSlice_length (xs vals : List ℚ) (s e : ℕ) (hse : s ≤ e) (he : e ≤ xs.length)
    (hv : vals.length = e - s) : (setSlice xs s e vals).length = xs.length := by
  simp [setSlice, hv]
  omega

theorem setSlice_get_lt (xs vals : List ℚ) (s e i : ℕ) (hs : s ≤ xs.length) (hi : i < s) :
    arrGet (setSlice xs s e vals) i = arrGet xs i := by
  have h1 : i < (xs.take s).length := by
    simp [List.length_take]
    omega
  rw [setSlice, List.append_assoc, arrGet_append_left _ _ _ h1]
  simp [arrGet, List.getElem?_take_of_lt hi]

theorem setSlice_get_mid (xs vals : List ℚ) (s e i : ℕ) (hs : s ≤ xs.length)
    (hi1 : s ≤ i) (hi2 : i < e) (hv : vals.length = e - s) :
    arrGet (setSlice xs s e vals) i = arrGet vals (i - s) := by
  have hts : (xs.take s).length = s := by
    simp [List.length_take]
    omega
  rw [setSlice, List.append_assoc, arrGet_append_right _ _ _ (by omega), hts,
    arrGet_append_left _ _ _ (by omega)]

theorem setSlice_get_ge (xs vals : List ℚ) (s e i : ℕ) (hse : s ≤ e) (hs : s ≤ xs.length)
    (hv : vals.length = e - s) (hi : e ≤ i) :
    arrGet (setSlice xs s e vals) i = arrGet xs i := by
  have hl : (xs.take s ++ vals).length = e := by
    simp [List.length_take]
    omega
  have hidx : e + (i - e) = i := by omega
  rw [setSlice, arrGet_append_right _ _ _ (by omega), hl]
  simp [arrGet, List.getElem?_drop, hidx]

theorem linspace_length (a b : ℚ) (n : ℕ) : (linspace a b n).length = n := by
  simp [linspace]

theorem linspace_get (a b : ℚ) (n k : ℕ) (hk : k < n) :
    arrGet (linspace a b n) k = a + k * ((b - a) / ((n : ℚ) - 1)) := by
  simp [linspace, arrGet, List.getElem?_map, List.getElem?_range hk, mul_div_assoc]

theorem linspace_last (a b : ℚ) (n : ℕ) (hn : 2 ≤ n) :
    arrGet (linspace a b n) (n - 1) = b := by
  rw [linspace_get a b n (n - 1) (by omega)]
  have h1 : ((n - 1 : ℕ) : ℚ) = (n : ℚ) - 1 := by
    rw [Nat.cast_sub (by omega : 1 ≤ n)]
    norm_num
  have h2 : ((n : ℚ) - 1) ≠ 0 := by
    have h3 : (2 : ℚ) ≤ (n : ℚ) := by exact_mod_cast hn
    linarith
  rw [h1]
  field_simp

theorem linspace_mono_of_le (a b : ℚ) (n k k2 : ℕ) (hab : a ≤ b) (hk : k ≤ k2) (hk2 : k2 < n) :
    arrGet (linspace a b n) k ≤ arrGet (linspace a b n) k2 := by
  rw [linspace_get a b n k (by omega), linspace_get a b n k2 hk2]
  have hm : (0 : ℚ) ≤ (n : ℚ) - 1 := by
    have h3 : (1 : ℚ) ≤ (n : ℚ) := by exact_mod_cast (by omega : 1 ≤ n)
    linarith
  have hd : 0 ≤ (b - a) / ((n : ℚ) - 1) := div_nonneg (by linarith) hm
  have hkk : (k : ℚ) ≤ (k2 : ℚ) := by exact_mod_cast hk
  have h4 := mul_le_mul_of_nonneg_right hkk hd
  linarith

theorem linspace_left_le_of_le (a b : ℚ) (n k : ℕ) (hab : a ≤ b) (hk : k < n) :
    a ≤ arrGet (linspace a b n) k := by
  rw [linspace_get a b n k hk]
  have hm : (0 : ℚ) ≤ (n : ℚ) - 1 := by
    have h3 : (1 : ℚ) ≤ (n : ℚ) := by exact_mod_cast (by omega : 1 ≤ n)
    linarith
  have hd : 0 ≤ (b - a) / ((n : ℚ) - 1) := div_nonneg (by linarith) hm
  have h4 : 0 ≤ (k : ℚ) * ((b - a) / ((n : ℚ) - 1)) := mul_nonneg (Nat.cast_nonneg k) hd
  linarith

theorem linspace_le_right_of_le (a b : ℚ) (n k : ℕ) (hab : a ≤ b) (hk : k < n) :
    arrGet (linspace a b n) k ≤ b := by
  rcases Nat.lt_or_ge n 2 with h2 | h2
  · have hn1 : n = 1 := by omega
    subst hn1
    have hk0 : k = 0 := by omega
    subst hk0
    rw [linspace_get a b 1 0 (by omega)]
    simpa using hab
  · calc arrGet (linspace a b n) k ≤ arrGet (linspace a b n) (n - 1) :=
      linspace_mono_of_le a b n k (n - 1) hab (by omega) (by omega)
    _ = b := linspace_last a b n h2

theorem linspace_neg_get (a b : ℚ) (n k : ℕ) (hk : k < n) :
    arrGet (linspace a b n) k = -(arrGet (linspace (-a) (-b) n) k) := by
  rw [linspace_get a b n k hk, linspace_get (-a) (-b) n k hk]
  ring

theorem linspace_anti_of_ge (a b : ℚ) (n k k2 : ℕ) (hab : b ≤ a) (hk : k ≤ k2) (hk2 : k2 < n) :
    arrGet (linspace a b n) k2 ≤ arrGet (linspace a b n) k := by
  rw [linspace_neg_get a b n k (by omega), linspace_neg_get a b n k2 hk2]
  have h4 := linspace_mono_of_le (-a) (-b) n k k2 (by linarith) hk hk2
  linarith

theorem linspace_le_left_of_ge (a b : ℚ) (n k : ℕ) (hab : b ≤ a) (hk : k < n) :
    arrGet (linspace a b n) k ≤ a := by
  rw [linspace_neg_get a b n k hk]
  have h4 := linspace_left_le_of_le (-a) (-b) n k (by linarith) hk
  linarith

theorem linspace_right_le_of_ge (a b : ℚ) (n k : ℕ) (hab : b ≤ a) (hk : k < n) :
    b ≤ arrGet (linspace a b n) k := by
  rw [linspace_neg_get a b n k hk]
  have h4 := linspace_le_right_of_le (-a) (-b) n k (by linarith) hk
  linarith

theorem matchIndices_pairwise (w : List ℚ) (region : SpectralRegion) :
    (matchIndices w region).Pairwise (· < ·) :=
  (List.pairwise_lt_range w.length).filter _

theorem matchIndices_mem_lt (w : List ℚ) (region : SpectralRegion) (i : ℕ)
    (h : i ∈ matchIndices w region) : i < w.length := by
  simp only [matchIndices, List.mem_filter, List.mem_range] at h
  exact h.1

theorem exciseBounds_sound (w : List ℚ) (region : SpectralRegion) (s e : ℕ)
    (hb : exciseBounds w region = some (s, e)) : s ≤ e ∧ e + 1 ≤ w.length := by
  rcases hml : matchIndices w region with _ | ⟨i0, rest⟩
  · rw [exciseBounds, hml] at hb
    exact absurd hb (by simp)
  · rw [exciseBounds, hml] at hb
    simp only [Option.some.injEq, Prod.mk.injEq] at hb
    obtain ⟨hs, he⟩ := hb
    have hmem0 : i0 ∈ matchIndices w region := by
      rw [hml]
      exact List.mem_cons_self i0 rest
    have hi0 : i0 < w.length := matchIndices_mem_lt w region i0 hmem0
    have hLmem : (i0 :: rest).getLastD 0 ∈ i0 :: rest := by
      rw [List.getLastD_cons]
      exact List.getLastD_mem_cons rest i0
    have hi0L : i0 ≤ (i0 :: rest).getLastD 0 := by
      have hp := matchIndices_pairwise w region
      rw [hml] at hp
      rcases List.mem_cons.mp hLmem with h | h
      · omega
      · exact le_of_lt (List.rel_of_pairwise_cons hp h)
    have h1 := natMin_le_right ((i0 :: rest).getLastD 0 + 1) (w.length - 1)
    have h2 : i0 - 1 ≤ natMin ((i0 :: rest).getLastD 0 + 1) (w.length - 1) :=
      le_natMin _ _ _ (by omega) (by omega)
    omega

theorem sliceSize_eq (xs : List ℚ) (s e : ℕ) (hse : s ≤ e) (he : e ≤ xs.length) :
    sliceSize xs s e = e - s := by
  unfold sliceSize natMin
  split <;> split <;> omega

/-- Characterization of a successful `linear_exciser` call: under the
data-model invariant (flux and wavelength arrays of equal length) and a
non-empty match, the call succeeds and the output is built from the flux array
with the slice `[s, e)` overwritten by `linspace flux[s] flux[e] (e - s)`. -/
theorem linear_exciser_ok_spec (spectrum : Spectrum1D) (region : SpectralRegion) (s e : ℕ)
    (hlen : spectrum.flux.values.length = spectrum.spectral_axis.values.length)
    (hb : exciseBounds spectrum.spectral_axis.values region = some (s, e)) :
    linear_exciser spectrum region = .ok { spectrum with
      flux := { values := setSlice spectrum.flux.values s e (linspace
                    (arrGet spectrum.flux.values s) (arrGet spectrum.flux.values e) (e - s)),
                unit := spectrum.flux.unit } } := by
  obtain ⟨hse, hew⟩ := exciseBounds_sound _ _ _ _ hb
  have he : e < spectrum.flux.values.length := by omega
  rw [linear_exciser, excisedFlux, hb]
  simp [he, sliceSize_eq spectrum.flux.values s e hse (by omega), Except.map]

/-! Evaluation helpers for the concrete sample inputs.  The arithmetic
operations on `ℚ` are irreducible for `decide`, so concrete values of
`linspace` are computed through `norm_num`. -/

theorem linspace_two (a b : ℚ) : linspace a b 2 = [a, b] := by
  rw [linspace, show List.range 2 = [0, 1] from by decide]
  simp only [List.map]
  norm_num

theorem excisedFlux_of_ok (spectrum : Spectrum1D) (region : SpectralRegion)
    (out : Spectrum1D) (h : linear_exciser spectrum region = .ok out) :
    excisedFlux spectrum region = .ok out.flux.values := by
  rw [linear_exciser] at h
  cases hm : excisedFlux spectrum region with
  | error err =>
    rw [hm] at h
    exact absurd h (by simp [Except.map])
  | ok mf =>
    rw [hm] at h
    simp only [Except.map, Except.ok.injEq] at h
    rw [← h]

theorem sampleExcise_eval :
    linear_exciser sampleSpectrum sampleRegion = .ok sampleExcisedSpectrum := by
  have h := linear_exciser_ok_spec sampleSpectrum sampleRegion 1 3 (by decide) (by decide)
  have hv : setSlice sampleSpectrum.flux.values 1 3
      (linspace (arrGet sampleSpectrum.flux.values 1) (arrGet sampleSpectrum.flux.values 3)
        (3 - 1)) = ([10, 20, 40, 40, 50] : List ℚ) := by
    rw [show arrGet sampleSpectrum.flux.values 1 = 20 from by decide,
      show arrGet sampleSpectrum.flux.values 3 = 40 from by decide,
      show (3 : ℕ) - 1 = 2 from rfl, linspace_two]
    decide
  rw [h, hv]
  rfl

/-! Claim theorems. -/

/-- C1, counterexample: the claim says the flux is overwritten on the
extended, inclusive index range `[s, e]` with a linearly spaced sequence whose
endpoints are the flux values at the two boundary indices.  On the concrete
spectrum with wavelengths `[1, 2, 3, 4, 5]`, flux `[10, 20, 30, 40, 50]` and
region `[3, 4)`, the bounds are `s = 1`, `e = 3`; the inclusive overwrite would
put `30` at index 2 and leave the flux unchanged, but the source writes
`np.linspace(flux[1], flux[3], 2)` into the half-open slice `[1, 3)` and puts
`40` at index 2. -/
theorem linear_exciser_inclusive_claim_cex :
    exciseBounds sampleSpectrum.spectral_axis.values sampleRegion = some (1, 3) ∧
    linear_exciser sampleSpectrum sampleRegion = .ok sampleExcisedSpectrum ∧
    arrGet sampleExcisedSpectrum.flux.values 2 = 40 ∧
    arrGet (inclusiveExcisedFlux sampleSpectrum.flux.values 1 3) 2 = 30 ∧
    sampleExcisedSpectrum.flux.values ≠ inclusiveExcisedFlux sampleSpectrum.flux.values 1 3 := by
  have hB : arrGet (inclusiveExcisedFlux sampleSpectrum.flux.values 1 3) 2 = 30 := by
    rw [inclusiveExcisedFlux,
      show arrGet sampleSpectrum.flux.values 1 = 20 from by decide,
      show arrGet sampleSpectrum.flux.values 3 = 40 from by decide,
      setSlice_get_mid _ _ _ _ _ (by decide) (by decide) (by decide)
        (by rw [linspace_length]),
      linspace_get 20 40 (3 + 1 - 1) (2 - 1) (by decide)]
    norm_num
  refine ⟨by decide, sampleExcise_eval, by decide, hB, ?_⟩
  intro heq
  have h2 := congrArg (fun l => arrGet l 2) heq
  simp only at h2
  rw [hB, show arrGet sampleExcisedSpectrum.flux.values 2 = 40 from by decide] at h2
  exact absurd h2 (by decide)

/-- C1, amended: for every spectrum satisfying the equal-length invariant and
every region matching at least one wavelength sample, `linear_exciser` extends
the matched index range by one sample on each side (clamped to array bounds),
giving `s` and `e`, and overwrites the flux exactly on the half-open range
`[s, e)`: position `i` with `s ≤ i < e` receives point `i - s` of the linearly
spaced sequence of `e - s` points whose endpoints are the flux values at the
two boundary indices `s` and `e`; index `e` itself and every index outside the
range keep their original flux value. -/
theorem linear_exciser_overwrites_half_open (spectrum : Spectrum1D) (region : SpectralRegion)
    (s e : ℕ)
    (hlen : spectrum.flux.values.length = spectrum.spectral_axis.values.length)
    (hb : exciseBounds spectrum.spectral_axis.values region = some (s, e)) :
    ∃ out, linear_exciser spectrum region = .ok out ∧
      out.flux.values.length = spectrum.flux.values.length ∧
      (∀ i, s ≤ i → i < e → arrGet out.flux.values i =
        arrGet (linspace (arrGet spectrum.flux.values s) (arrGet spectrum.flux.values e)
          (e - s)) (i - s)) ∧
      (∀ i, i < s ∨ e ≤ i → arrGet out.flux.values i = arrGet spectrum.flux.values i) := by
  obtain ⟨hse, hew⟩ := exciseBounds_sound _ _ _ _ hb
  have hsl : s ≤ spectrum.flux.values.length := by omega
  have hel : e ≤ spectrum.flux.values.length := by omega
  have hv : (linspace (arrGet spectrum.flux.values s) (arrGet spectrum.flux.values e)
      (e - s)).length = e - s := linspace_length _ _ _
  refine ⟨_, linear_exciser_ok_spec spectrum region s e hlen hb, ?_, ?_, ?_⟩
  · exact setSlice_length _ _ _ _ hse hel hv
  · intro i h1 h2
    exact setSlice_get_mid _ _ _ _ _ hsl h1 h2 hv
  · intro i h
    rcases h with h | h
    · exact setSlice_get_lt _ _ _ _ _ hsl h
    · exact setSlice_get_ge _ _ _ _ _ hse hsl hv h

/-- Witness for the amended C1 theorem at the concrete sample input. -/
theorem linear_exciser_overwrites_half_open_witness :
    sampleSpectrum.flux.values.length = sampleSpectrum.spectral_axis.values.length ∧
    exciseBounds sampleSpectrum.spectral_axis.values sampleRegion = some (1, 3) ∧
    (∃ out, linear_exciser sampleSpectrum sampleRegion = .ok out ∧
      out.flux.values.length = sampleSpectrum.flux.values.length ∧
      (∀ i, 1 ≤ i → i < 3 → arrGet out.flux.values i =
        arrGet (linspace (arrGet sampleSpectrum.flux.values 1) (arrGet sampleSpectrum.flux.values 3)
          (3 - 1)) (i - 1)) ∧
      (∀ i, i < 1 ∨ 3 ≤ i → arrGet out.flux.values i = arrGet sampleSpectrum.flux.values i)) :=
  ⟨by decide, by decide,
    linear_exciser_overwrites_half_open sampleSpectrum sampleRegion 1 3 (by decide) (by decide)⟩

/-- C2, counterexample: on the concrete sample input the call returns normally,
yet afterwards the flux array of the input spectrum holds the modified values
`[10, 20, 40, 40, 50]`, not the values `[10, 20, 30, 40, 50]` it held before
the call: `modified_flux = flux` aliases the input array and the slice
assignment mutates it in place. -/
theorem linear_exciser_input_mutation_cex :
    linear_exciser_inputFluxAfter sampleSpectrum sampleRegion =
      .ok ([10, 20, 40, 40, 50] : List ℚ) ∧
    sampleSpectrum.flux.values = ([10, 20, 30, 40, 50] : List ℚ) ∧
    linear_exciser_inputFluxAfter sampleSpectrum sampleRegion ≠ .ok sampleSpectrum.flux.values := by
  have h1 : linear_exciser_inputFluxAfter sampleSpectrum sampleRegion =
      .ok ([10, 20, 40, 40, 50] : List ℚ) :=
    excisedFlux_of_ok sampleSpectrum sampleRegion sampleExcisedSpectrum sampleExcise_eval
  refine ⟨h1, by decide, ?_⟩
  intro heq
  rw [h1] at heq
  have h2 : ([10, 20, 40, 40, 50] : List ℚ) = sampleSpectrum.flux.values := Except.ok.inj heq
  exact absurd h2 (by decide)

/-- C2, amended: `linear_exciser` returns a new spectrum value, but it mutates
the flux array of its input in place: after every call that returns normally,
the flux array of the input spectrum holds exactly the flux values of the
returned spectrum (which differ from the original values inside the excised
range), not the values it held before the call. -/
theorem linear_exciser_mutates_input_flux (spectrum : Spectrum1D) (region : SpectralRegion)
    (out : Spectrum1D) (h : linear_exciser spectrum region = .ok out) :
    linear_exciser_inputFluxAfter spectrum region = .ok out.flux.values := by
  rw [linear_exciser_inputFluxAfter]
  exact excisedFlux_of_ok spectrum region out h

/-- Witness for the amended C2 theorem at the concrete sample input. -/
theorem linear_exciser_mutates_input_flux_witness :
    linear_exciser sampleSpectrum sampleRegion = .ok sampleExcisedSpectrum ∧
    linear_exciser_inputFluxAfter sampleSpectrum sampleRegion =
      .ok sampleExcisedSpectrum.flux.values :=
  ⟨sampleExcise_eval,
    linear_exciser_mutates_input_flux sampleSpectrum sampleRegion sampleExcisedSpectrum
      sampleExcise_eval⟩

/-- C3: for every spectrum and every region whose interval `[lower, upper)`
contains no wavelength sample, `linear_exciser` raises the out-of-range
`IndexError` coming from the read `inclusive_indices[0]` on the empty match,
rather than returning a spectrum or raising a descriptive error. -/
theorem linear_exciser_empty_match_index_error (spectrum : Spectrum1D) (region : SpectralRegion)
    (h : matchIndices spectrum.spectral_axis.values region = []) :
    linear_exciser spectrum region = .error .indexError := by
  simp [linear_exciser, excisedFlux, exciseBounds, h, Except.map]

/-- Witness for the C3 theorem: the region `[10, 20)` matches no wavelength
sample of the concrete spectrum. -/
theorem linear_exciser_empty_match_index_error_witness :
    matchIndices sampleSpectrum.spectral_axis.values sampleRegionOutside = [] ∧
    linear_exciser sampleSpectrum sampleRegionOutside = .error .indexError :=
  ⟨by decide,
    linear_exciser_empty_match_index_error sampleSpectrum sampleRegionOutside (by decide)⟩

/-- Helper for C4: the loop of `excise_regions` is the left fold of
`excise_region` over the region list. -/
theorem exciseLoop_eq_foldlM (regions : List RegionArg) (exciser : Exciser) :
    ∀ s : Spectrum1D, exciseLoop s regions exciser =
      regions.foldlM (fun sp r => excise_region (.spec1d sp) r exciser) s := by
  induction regions with
  | nil =>
    intro s
    rfl
  | cons r rs ih =>
    intro s
    rw [exciseLoop, List.foldlM_cons]
    cases h : excise_region (.spec1d s) r exciser with
    | error err => rfl
    | ok s2 => exact ih s2

/-- C4: for every spectrum of the expected type and every list of regions,
`excise_regions` returns the same result as sequentially applying
`excise_region` to each region in list order, threading the intermediate
spectrum through each call (a left fold with `excise_region`). -/
theorem excise_regions_eq_sequential (s : Spectrum1D) (regions : List RegionArg)
    (exciser : Exciser) :
    excise_regions (.spec1d s) regions exciser = excise_regions_spec s regions exciser := by
  rw [excise_regions_spec, ← exciseLoop_eq_foldlM regions exciser s]
  rfl

/-- C5: for every model and spectrum, `spectrum_from_model` computes the output
flux as the model evaluated directly on the spectral axis when the model
understands physical units (`uses_quantity`), and otherwise as the model
evaluated on the unitless wavelength values with the flux unit of the input
spectrum attached. -/
theorem spectrum_from_model_flux_cases (m : Model) (spectrum : Spectrum1D) :
    (m.uses_quantity = true →
      (spectrum_from_model m spectrum).flux = m.onQuantity spectrum.spectral_axis) ∧
    (m.uses_quantity = false →
      (spectrum_from_model m spectrum).flux =
        { values := m.onValues spectrum.spectral_axis.values,
          unit := spectrum.flux.unit }) := by
  constructor <;> intro h <;> simp [spectrum_from_model, h]

/-- Witness for the C5 theorem at concrete models and the sample spectrum. -/
theorem spectrum_from_model_flux_cases_witness :
    (sampleModelQ.uses_quantity = true ∧
      (spectrum_from_model sampleModelQ sampleSpectrum).flux =
        sampleModelQ.onQuantity sampleSpectrum.spectral_axis) ∧
    (sampleModelV.uses_quantity = false ∧
      (spectrum_from_model sampleModelV sampleSpectrum).flux =
        { values := sampleModelV.onValues sampleSpectrum.spectral_axis.values,
          unit := sampleSpectrum.flux.unit }) :=
  ⟨⟨rfl, (spectrum_from_model_flux_cases sampleModelQ sampleSpectrum).1 rfl⟩,
    ⟨rfl, (spectrum_from_model_flux_cases sampleModelV sampleSpectrum).2 rfl⟩⟩

/-- C6: for every model and spectrum, the spectrum returned by
`spectrum_from_model` has a spectral axis exactly equal to the spectral axis of
the input spectrum, and carries no uncertainty. -/
theorem spectrum_from_model_axis_and_uncertainty (m : Model) (spectrum : Spectrum1D) :
    (spectrum_from_model m spectrum).spectral_axis = spectrum.spectral_axis ∧
    (spectrum_from_model m spectrum).uncertainty = none :=
  ⟨rfl, rfl⟩

/-- C7: `excise_region` raises the value error of the spectrum `isinstance`
check when the spectrum argument is not a `Spectrum1D`, raises the value error
of the region `isinstance` check when the spectrum is a `Spectrum1D` but the
region argument is not a `SpectralRegion` (in both cases whatever the exciser
is, so before the exciser is called), and performs no type validation of its
own when both arguments have the expected types: there it returns exactly the
result of the exciser. -/
theorem excise_region_type_validation :
    (∀ (tag : ℕ) (region : RegionArg) (exciser : Exciser),
      excise_region (.notSpectrum tag) region exciser =
        .error (.valueError ("The spectrum parameter must be Spectrum1D object."))) ∧
    (∀ (s : Spectrum1D) (tag : ℕ) (exciser : Exciser),
      excise_region (.spec1d s) (.notRegion tag) exciser =
        .error
          (.valueError ("The region parameter must be a 2-tuples of start and end wavelengths."))) ∧
    (∀ (s : Spectrum1D) (r : SpectralRegion) (exciser : Exciser),
      excise_region (.spec1d s) (.region r) exciser = exciser s r) :=
  ⟨fun _ _ _ => rfl, fun _ _ _ => rfl, fun _ _ _ => rfl⟩

/-- C8: for every spectrum with wavelength and flux arrays of equal length and
every region matching at least one sample, the spectrum returned by
`linear_exciser` has wavelength and flux arrays of the same, unchanged length,
and every flux value at an index outside the bounds-clamped, one-sample
extended matched index range `[s, e]` equals the corresponding input flux
value. -/
theorem linear_exciser_preserves_length_outside (spectrum : Spectrum1D)
    (region : SpectralRegion) (s e : ℕ)
    (hlen : spectrum.flux.values.length = spectrum.spectral_axis.values.length)
    (hb : exciseBounds spectrum.spectral_axis.values region = some (s, e)) :
    ∃ out, linear_exciser spectrum region = .ok out ∧
      out.spectral_axis.values.length = spectrum.spectral_axis.values.length ∧
      out.flux.values.length = spectrum.flux.values.length ∧
      out.flux.values.length = out.spectral_axis.values.length ∧
      (∀ i, i < s ∨ e < i → arrGet out.flux.values i = arrGet spectrum.flux.values i) := by
  obtain ⟨hse, hew⟩ := exciseBounds_sound _ _ _ _ hb
  have hsl : s ≤ spectrum.flux.values.length := by omega
  have hel : e ≤ spectrum.flux.values.length := by omega
  have hv : (linspace (arrGet spectrum.flux.values s) (arrGet spectrum.flux.values e)
      (e - s)).length = e - s := linspace_length _ _ _
  refine ⟨_, linear_exciser_ok_spec spectrum region s e hlen hb, rfl, ?_, ?_, ?_⟩
  · exact setSlice_length _ _ _ _ hse hel hv
  · dsimp only
    rw [setSlice_length _ _ _ _ hse hel hv]
    exact hlen
  · intro i hi
    rcases hi with h | h
    · exact setSlice_get_lt _ _ _ _ _ hsl h
    · exact setSlice_get_ge _ _ _ _ _ hse hsl hv (by omega)

/-- Witness for the C8 theorem at the concrete sample input. -/
theorem linear_exciser_preserves_length_outside_witness :
    sampleSpectrum.flux.values.length = sampleSpectrum.spectral_axis.values.length ∧
    exciseBounds sampleSpectrum.spectral_axis.values sampleRegion = some (1, 3) ∧
    (∃ out, linear_exciser sampleSpectrum sampleRegion = .ok out ∧
      out.spectral_axis.values.length = sampleSpectrum.spectral_axis.values.length ∧
      out.flux.values.length = sampleSpectrum.flux.values.length ∧
      out.flux.values.length = out.spectral_axis.values.length ∧
      (∀ i, i < 1 ∨ 3 < i → arrGet out.flux.values i = arrGet sampleSpectrum.flux.values i)) :=
  ⟨by decide, by decide,
    linear_exciser_preserves_length_outside sampleSpectrum sampleRegion 1 3
      (by decide) (by decide)⟩

/-- C9: for every spectrum with wavelength and flux arrays of equal length and
every region matching at least one sample, in the spectrum returned by
`linear_exciser` the flux over the inclusive, bounds-clamped matched index
range `[s, e]` is monotonic, non-decreasing when the boundary flux at the lower
index is at most the boundary flux at the upper index and non-increasing in the
opposite case, and every value of that range lies between the two boundary flux
values. -/
theorem linear_exciser_monotone_on_range (spectrum : Spectrum1D) (region : SpectralRegion)
    (s e : ℕ)
    (hlen : spectrum.flux.values.length = spectrum.spectral_axis.values.length)
    (hb : exciseBounds spectrum.spectral_axis.values region = some (s, e)) :
    ∃ out, linear_exciser spectrum region = .ok out ∧
      (∀ i j, s ≤ i → i ≤ j → j ≤ e →
        (arrGet spectrum.flux.values s ≤ arrGet spectrum.flux.values e →
          arrGet out.flux.values i ≤ arrGet out.flux.values j) ∧
        (arrGet spectrum.flux.values e ≤ arrGet spectrum.flux.values s →
          arrGet out.flux.values j ≤ arrGet out.flux.values i)) ∧
      (∀ i, s ≤ i → i ≤ e →
        min (arrGet spectrum.flux.values s) (arrGet spectrum.flux.values e) ≤
          arrGet out.flux.values i ∧
        arrGet out.flux.values i ≤
          max (arrGet spectrum.flux.values s) (arrGet spectrum.flux.values e)) := by
  obtain ⟨hse, hew⟩ := exciseBounds_sound _ _ _ _ hb
  have hsl : s ≤ spectrum.flux.values.length := by omega
  have hv : (linspace (arrGet spectrum.flux.values s) (arrGet spectrum.flux.values e)
      (e - s)).length = e - s := linspace_length _ _ _
  have hmid : ∀ k, s ≤ k → k < e →
      arrGet (setSlice spectrum.flux.values s e (linspace (arrGet spectrum.flux.values s)
        (arrGet spectrum.flux.values e) (e - s))) k =
      arrGet (linspace (arrGet spectrum.flux.values s) (arrGet spectrum.flux.values e)
        (e - s)) (k - s) :=
    fun k h1 h2 => setSlice_get_mid _ _ _ _ _ hsl h1 h2 hv
  have hend : arrGet (setSlice spectrum.flux.values s e (linspace (arrGet spectrum.flux.values s)
      (arrGet spectrum.flux.values e) (e - s))) e = arrGet spectrum.flux.values e :=
    setSlice_get_ge _ _ _ _ _ hse hsl hv (le_refl e)
  refine ⟨_, linear_exciser_ok_spec spectrum region s e hlen hb, ?_, ?_⟩
  · intro i j hi hij hje
    dsimp only
    constructor
    · intro hab
      rcases Nat.lt_or_ge j e with hj | hj
      · rw [hmid i hi (by omega), hmid j (by omega) hj]
        exact linspace_mono_of_le _ _ _ _ _ hab (by omega) (by omega)
      · have hjeq : j = e := by omega
        rw [hjeq, hend]
        rcases Nat.lt_or_ge i e with hi2 | hi2
        · rw [hmid i hi hi2]
          exact linspace_le_right_of_le _ _ _ _ hab (by omega)
        · have hieq : i = e := by omega
          rw [hieq, hend]
    · intro hba
      rcases Nat.lt_or_ge j e with hj | hj
      · rw [hmid i hi (by omega), hmid j (by omega) hj]
        exact linspace_anti_of_ge _ _ _ _ _ hba (by omega) (by omega)
      · have hjeq : j = e := by omega
        rw [hjeq, hend]
        rcases Nat.lt_or_ge i e with hi2 | hi2
        · rw [hmid i hi hi2]
          exact linspace_right_le_of_ge _ _ _ _ hba (by omega)
        · have hieq : i = e := by omega
          rw [hieq, hend]
  · intro i hi hie
    dsimp only
    rcases Nat.lt_or_ge i e with hi2 | hi2
    · rw [hmid i hi hi2]
      constructor
      · rcases le_total (arrGet spectrum.flux.values s) (arrGet spectrum.flux.values e) with
          hab | hba
        · exact le_trans (min_le_left _ _) (linspace_left_le_of_le _ _ _ _ hab (by omega))
        · exact le_trans (min_le_right _ _) (linspace_right_le_of_ge _ _ _ _ hba (by omega))
      · rcases le_total (arrGet spectrum.flux.values s) (arrGet spectrum.flux.values e) with
          hab | hba
        · exact le_trans (linspace_le_right_of_le _ _ _ _ hab (by omega)) (le_max_right _ _)
        · exact le_trans (linspace_le_left_of_ge _ _ _ _ hba (by omega)) (le_max_left _ _)
    · obtain rfl : i = e := by omega
      rw [hend]
      exact ⟨min_le_right _ _, le_max_right _ _⟩

/-- Witness for the C9 theorem at the concrete sample input. -/
theorem linear_exciser_monotone_on_range_witness :
    sampleSpectrum.flux.values.length = sampleSpectrum.spectral_axis.values.length ∧
    exciseBounds sampleSpectrum.spectral_axis.values sampleRegion = some (1, 3) ∧
    (∃ out, linear_exciser sampleSpectrum sampleRegion = .ok out ∧
      (∀ i j, 1 ≤ i → i ≤ j → j ≤ 3 →
        (arrGet sampleSpectrum.flux.values 1 ≤ arrGet sampleSpectrum.flux.values 3 →
          arrGet out.flux.values i ≤ arrGet out.flux.values j) ∧
        (arrGet sampleSpectrum.flux.values 3 ≤ arrGet sampleSpectrum.flux.values 1 →
          arrGet out.flux.values j ≤ arrGet out.flux.values i)) ∧
      (∀ i, 1 ≤ i → i ≤ 3 →
        min (arrGet sampleSpectrum.flux.values 1) (arrGet sampleSpectrum.flux.values 3) ≤
          arrGet out.flux.values i ∧
        arrGet out.flux.values i ≤
          max (arrGet sampleSpectrum.flux.values 1) (arrGet sampleSpectrum.flux.values 3))) :=
  ⟨by decide, by decide,
    linear_exciser_monotone_on_range sampleSpectrum sampleRegion 1 3 (by decide) (by decide)⟩

/-- C10: for every spectrum of the expected spectrum type and every exciser,
`excise_regions` applied to an empty list of regions returns the input spectrum
itself, unchanged; the result does not depend on the exciser (it is never
called) and no region type validation takes place because no region is
examined. -/
theorem excise_regions_nil_id (s : Spectrum1D) (exciser : Exciser) :
    excise_regions (.spec1d s) [] exciser = .ok s :=
  rfl

end SpecUtils
